/-
Verification of the gomavlib node runtime (node.go): configuration
validation and defaulting in NewNode, the write primitives writeTo /
writeAll / writeExcept, the Close shutdown sequence, and the network
transport constants.

The Go code is embedded shallowly: machine integers become Nat / Int
(time.Duration is Int nanoseconds), Go maps keyed by pointers become
lists of numeric identifiers (the identifier of a channel or accepter
created during NewNode is the index of its endpoint), fallible
construction returns Except, and the observable actions of a method
(mutex acquisition, queue sends, completion-token receives, subtask
stops) are recorded as an explicit event trace in the order the Go
statements - including LIFO-deferred statements - execute them.
-/
import Mathlib

set_option autoImplicit false

namespace Gomavlib

/-- Go time.Duration, in nanoseconds. -/
abbrev Duration := Int

/-- One second, as a Go time.Duration. -/
def second : Duration := 1000000000

/-- Constant for ip-based endpoints: read buffer size (bytes). -/
def netBufferSize : Nat := 512

/-- Constant for ip-based endpoints: connect timeout. -/
def netConnectTimeout : Duration := 10 * second

/-- Constant for ip-based endpoints: reconnect backoff period. -/
def netReconnectPeriod : Duration := 2 * second

/-- Constant for ip-based endpoints: read timeout. -/
def netReadTimeout : Duration := 60 * second

/-- Constant for ip-based endpoints: write timeout. -/
def netWriteTimeout : Duration := 10 * second

/-- Version is declared as an integer type in the source. -/
abbrev Version := Int

/-- V2 wraps outgoing messages in v2 frames; first iota constant, so 0. -/
def V2 : Version := 0

/-- V1 wraps outgoing messages in v1 frames; second iota constant, so 1. -/
def V1 : Version := 1

/-- The zero value a Go variable of type Version holds when not set. -/
def versionZeroValue : Version := 0

/-- A signature key; its content is irrelevant to the node runtime, only
whether it is present, so it is kept as its raw bytes. -/
abbrev SignatureKey := List Nat

/-- A dialect, abstracted to the set of message ids it defines; only
presence of the HEARTBEAT message (id 0) matters to the node runtime. -/
structure Dialect where
  messageIds : List Nat
deriving DecidableEq

/-- The two endpoint capabilities NewNode dispatches on: an endpoint
either accepts peers (endpointChannelAccepter) or yields a single
byte stream (endpointChannelSingle). -/
inductive EndpointKind where
  | accepter
  | single
deriving DecidableEq

deriving instance DecidableEq for Except

/-- An endpoint configuration, abstracted to the outcome of its init
method: an error, or an endpoint of one of the two kinds. -/
structure EndpointConf where
  initResult : Except String EndpointKind
deriving DecidableEq

/-- NodeConf allows to configure a Node. -/
structure NodeConf where
  Endpoints : List EndpointConf
  Dialect : Option Dialect
  InSignatureKey : Option SignatureKey
  OutVersion : Version
  OutSystemId : Nat
  OutComponentId : Nat
  OutSignatureKey : Option SignatureKey
  HeartbeatDisable : Bool
  HeartbeatPeriod : Duration
  HeartbeatSystemType : Int
deriving DecidableEq

/-- The zero value of NodeConf, as Go initializes omitted fields. -/
def zeroNodeConf : NodeConf where
  Endpoints := []
  Dialect := none
  InSignatureKey := none
  OutVersion := 0
  OutSystemId := 0
  OutComponentId := 0
  OutSignatureKey := none
  HeartbeatDisable := false
  HeartbeatPeriod := 0
  HeartbeatSystemType := 0

/-- The state a failed NewNode leaves behind: which channels and channel
accepters it closed before returning its error message. -/
structure NewNodeError where
  closedChannels : List Nat
  closedAccepters : List Nat
  msg : String
deriving DecidableEq

/-- Node is a high-level Mavlink encoder and decoder that works with
endpoints. Channels and accepters are identified by the index of the
endpoint that produced them. -/
structure Node where
  conf : NodeConf
  channelAccepters : List Nat
  channels : List Nat
  nodeHeartbeat : Option Unit
deriving DecidableEq

/-- Modelled from the spec: the heartbeat emitter constructor
newNodeHeartbeat is not among the provided sources. Per the spec the
emitter is suppressible through heartbeat_disable and is disabled when
the dialect does not define HEARTBEAT (message id 0). -/
def newNodeHeartbeat (conf : NodeConf) : Option Unit :=
  if conf.HeartbeatDisable then none
  else match conf.Dialect with
    | none => none
    | some d => if 0 ∈ d.messageIds then some () else none

/-- The endpoint loop of NewNode: initialize each endpoint in order,
numbering endpoints from i, accumulating accepter ids and channel ids.
On the first init error the Go code closes every channel, then every
channel accepter, created so far and returns the error; the closed sets
are recorded in the error value. -/
def initLoop : List EndpointConf → Nat → List Nat → List Nat →
    Except NewNodeError (List Nat × List Nat)
  | [], _, accs, chans => Except.ok (accs, chans)
  | e :: rest, i, accs, chans =>
    match e.initResult with
    | Except.error msg => Except.error ⟨chans, accs, msg⟩
    | Except.ok EndpointKind.accepter => initLoop rest (i + 1) (accs ++ [i]) chans
    | Except.ok EndpointKind.single => initLoop rest (i + 1) accs (chans ++ [i])

/-- NewNode allocates a Node, mirroring the Go control flow: validate
the system id, default the component id, require at least one endpoint,
require V2 when an out signature key is set, default the heartbeat
period and system type, then initialize the endpoints in order. -/
def NewNode (conf : NodeConf) : Except NewNodeError Node :=
  if conf.OutSystemId < 1 then Except.error ⟨[], [], "SystemId must be >= 1"⟩
  else
    let conf1 := if conf.OutComponentId < 1 then { conf with OutComponentId := 1 } else conf
    if conf1.Endpoints.length = 0 then
      Except.error ⟨[], [], "at least one endpoint must be provided"⟩
    else if conf1.OutSignatureKey.isSome ∧ conf1.OutVersion ≠ V2 then
      Except.error ⟨[], [], "OutSignatureKey requires V2 frames"⟩
    else
      let conf2 := if conf1.HeartbeatPeriod = 0
        then { conf1 with HeartbeatPeriod := 5 * second } else conf1
      let conf3 := if conf2.HeartbeatSystemType = 0
        then { conf2 with HeartbeatSystemType := 6 } else conf2
      match initLoop conf3.Endpoints 0 [] [] with
      | Except.error e => Except.error e
      | Except.ok (accs, chans) =>
        Except.ok { conf := conf3, channelAccepters := accs, channels := chans,
                    nodeHeartbeat := newNodeHeartbeat conf3 }

/-- Modelled from the spec: the frame codec that wraps outgoing messages
is not among the provided sources. Per the spec, outgoing frames are
wrapped using the configured out_version. -/
def outgoingWrapVersion (n : Node) : Version := n.conf.OutVersion

/-- An item sent on a write queue (a message or a routed frame); its
content is irrelevant to the node dispatch, so it is an opaque value. -/
abbrev Item := Nat

/-- The runtime state the write primitives act on: the set of registered
channels (the keys of the Go map n.channels, guarded by channelsMutex)
and the write queue of every channel. -/
structure NodeState where
  channels : List Nat
  queues : Nat → List Item

/-- Observable actions of a write primitive, in execution order:
acquiring and releasing channelsMutex, sending an item on a channel
write queue, and receiving one completion token from writeDone. -/
inductive WEv where
  | lock
  | unlock
  | enq (c : Nat) (x : Item)
  | recvDone
deriving DecidableEq

/-- The queue updates performed by a loop that sends x on the write
queue of each channel of l in order. -/
def enqAll (l : List Nat) (x : Item) (q : Nat → List Item) : Nat → List Item :=
  match l with
  | [] => q
  | c :: rest => enqAll rest x (fun d => if d = c then q d ++ [x] else q d)

/-- writeTo: under channelsMutex, return immediately if the channel is
not registered; otherwise send the item on its write queue and wait for
one completion token. -/
def writeTo (s : NodeState) (c : Nat) (x : Item) : NodeState × List WEv :=
  if c ∈ s.channels then
    ({ s with queues := fun d => if d = c then s.queues d ++ [x] else s.queues d },
     [WEv.lock, WEv.enq c x, WEv.recvDone, WEv.unlock])
  else
    (s, [WEv.lock, WEv.unlock])

/-- writeAll: under channelsMutex, send the item on the write queue of
every registered channel; the deferred completion-token receives run at
return, before the deferred mutex release. -/
def writeAll (s : NodeState) (x : Item) : NodeState × List WEv :=
  ({ s with queues := enqAll s.channels x s.queues },
   WEv.lock :: (s.channels.map (fun c => WEv.enq c x)
     ++ s.channels.map (fun _ => WEv.recvDone) ++ [WEv.unlock]))

/-- writeExcept: as writeAll, skipping the excepted channel. -/
def writeExcept (s : NodeState) (ex : Nat) (x : Item) : NodeState × List WEv :=
  let targets := s.channels.filter (fun c => c ≠ ex)
  ({ s with queues := enqAll targets x s.queues },
   WEv.lock :: (targets.map (fun c => WEv.enq c x)
     ++ targets.map (fun _ => WEv.recvDone) ++ [WEv.unlock]))

/-- Observable actions of Node.Close, in execution order. waitAll is the
WaitGroup join that returns once every subtask (channel read and write
loops, accepters, heartbeat) has terminated; closeEventChan is the
close of the node event stream. -/
inductive CEv where
  | stopHeartbeat
  | stopAccepter (a : Nat)
  | lock
  | stopChannel (c : Nat)
  | unlock
  | startDrainer
  | waitAll
  | closeEventChan
deriving DecidableEq

/-- Close stops node operations and waits for all routines to return:
stop the heartbeat when present, stop every accepter, stop every
channel under channelsMutex, spawn the event drainer, join all
subtasks, and only then close the event stream. -/
def Close (n : Node) : List CEv :=
  (if n.nodeHeartbeat.isSome then [CEv.stopHeartbeat] else []) ++
  n.channelAccepters.map CEv.stopAccepter ++
  (CEv.lock :: n.channels.map CEv.stopChannel ++ [CEv.unlock]) ++
  [CEv.startDrainer, CEv.waitAll, CEv.closeEventChan]

/-- Endpoint indices, numbered from i, of the endpoints of l whose init
yields a single-channel endpoint; these are the channels NewNode creates
while walking l. -/
def createdSingles : List EndpointConf → Nat → List Nat
  | [], _ => []
  | e :: rest, i =>
    (if e.initResult = Except.ok EndpointKind.single then [i] else []) ++
      createdSingles rest (i + 1)

/-- Endpoint indices, numbered from i, of the endpoints of l whose init
yields an accepter endpoint; these are the channel accepters NewNode
creates while walking l. -/
def createdAccepters : List EndpointConf → Nat → List Nat
  | [], _ => []
  | e :: rest, i =>
    (if e.initResult = Except.ok EndpointKind.accepter then [i] else []) ++
      createdAccepters rest (i + 1)

theorem enqAll_not_mem (l : List Nat) (x : Item) (q : Nat → List Item) (c : Nat)
    (hc : c ∉ l) : enqAll l x q c = q c := by
  induction l generalizing q with
  | nil => rfl
  | cons d rest ih =>
    have hcd : c ≠ d := fun h => hc (h ▸ List.mem_cons_self d rest)
    have hcr : c ∉ rest := fun h => hc (List.mem_cons_of_mem d h)
    rw [enqAll, ih _ hcr]
    simp [hcd]

theorem enqAll_mem (l : List Nat) (x : Item) (q : Nat → List Item) (c : Nat)
    (hnd : l.Nodup) (hc : c ∈ l) : enqAll l x q c = q c ++ [x] := by
  induction l generalizing q with
  | nil => cases hc
  | cons d rest ih =>
    rw [List.nodup_cons] at hnd
    rw [enqAll]
    rcases List.mem_cons.mp hc with hcd | hcr
    · subst hcd
      rw [enqAll_not_mem _ _ _ _ hnd.1]
      simp
    · have hcd : c ≠ d := fun h => hnd.1 (h ▸ hcr)
      rw [ih _ hnd.2 hcr]
      simp [hcd]

theorem count_enq_map_enq (l : List Nat) (x : Item) (c : Nat) :
    ((l.map fun d => WEv.enq d x).count (WEv.enq c x)) = l.count c := by
  induction l with
  | nil => rfl
  | cons d rest ih =>
    simp only [List.map_cons, List.count_cons, ih]
    by_cases h : d = c <;> simp [h]

theorem count_recvDone_map (l : List Nat) :
    ((l.map fun _ => WEv.recvDone).count WEv.recvDone) = l.length := by
  induction l with
  | nil => rfl
  | cons d rest ih => simp [List.count_cons, ih]

theorem mem_map_enq {l : List Nat} {x : Item} {e : WEv}
    (h : e ∈ l.map fun d => WEv.enq d x) : ∃ c ∈ l, e = WEv.enq c x := by
  rcases List.mem_map.mp h with ⟨c, hc, rfl⟩
  exact ⟨c, hc, rfl⟩

theorem mem_map_recvDone {l : List Nat} {e : WEv}
    (h : e ∈ l.map fun _ => WEv.recvDone) : e = WEv.recvDone := by
  rcases List.mem_map.mp h with ⟨c, _, rfl⟩
  rfl

/-- The event trace of every write primitive has this shape: the mutex
acquisition, then the sends and completion receives, then the release. -/
theorem wtrace_shape (l : List Nat) (x : Item) :
    let tr := WEv.lock :: (l.map (fun c => WEv.enq c x)
      ++ l.map (fun _ => WEv.recvDone) ++ [WEv.unlock])
    tr.head? = some WEv.lock ∧
    tr.getLast? = some WEv.unlock ∧
    tr.count WEv.lock = 1 ∧
    tr.count WEv.unlock = 1 ∧
    tr.count WEv.recvDone = l.length ∧
    (∀ c, c ∈ l → tr.count (WEv.enq c x) = l.count c) ∧
    (∀ c y, WEv.enq c y ∈ tr → c ∈ l ∧ y = x) := by
  intro tr
  refine ⟨rfl, ?_, ?_, ?_, ?_, ?_, ?_⟩
  · have hsh : tr = (WEv.lock :: (l.map (fun c => WEv.enq c x)
      ++ l.map (fun _ => WEv.recvDone))) ++ [WEv.unlock] := by simp [tr]
    rw [hsh, List.getLast?_append_cons]
    rfl
  · have h1 : (l.map fun c => WEv.enq c x).count WEv.lock = 0 :=
      List.count_eq_zero.mpr (fun h => by rcases mem_map_enq h with ⟨c, _, h⟩; cases h)
    simp [tr, List.count_cons, List.count_append, h1, List.count_replicate]
  · have h1 : (l.map fun c => WEv.enq c x).count WEv.unlock = 0 :=
      List.count_eq_zero.mpr (fun h => by rcases mem_map_enq h with ⟨c, _, h⟩; cases h)
    simp [tr, List.count_cons, List.count_append, h1, List.count_replicate]
  · have h1 : (l.map fun c => WEv.enq c x).count WEv.recvDone = 0 :=
      List.count_eq_zero.mpr (fun h => by rcases mem_map_enq h with ⟨c, _, h⟩; cases h)
    simp [tr, List.count_cons, List.count_append, h1, List.count_replicate]
  · intro c _
    simp [tr, List.count_cons, List.count_append, List.count_replicate,
      count_enq_map_enq]
  · intro c y hmem
    rcases List.mem_cons.mp hmem with h | h
    · cases h
    · rcases List.mem_append.mp h with h2 | h2
      · rcases List.mem_append.mp h2 with h3 | h3
        · rcases mem_map_enq h3 with ⟨d, hd, he⟩
          cases he
          exact ⟨hd, rfl⟩
        · cases mem_map_recvDone h3
      · cases List.mem_singleton.mp h2

/-- A concrete node runtime state used to instantiate the write-primitive
theorems: three registered channels with empty write queues. -/
def stateW : NodeState := ⟨[1, 2, 3], fun _ => []⟩

/-- C2: writeAll acquires the channels mutex, enqueues the item to the
write queue of every currently-registered channel (and of no other), and
returns only after one completion token has been received per enqueued
channel; the mutex is acquired exactly once as the first action and
released exactly once as the last action, so it is held for the entire
fan-out including the wait for acknowledgements. -/
theorem writeAll_fanout (s : NodeState) (x : Item) (h : s.channels.Nodup) :
    ((writeAll s x).2.head? = some WEv.lock) ∧
    ((writeAll s x).2.getLast? = some WEv.unlock) ∧
    ((writeAll s x).2.count WEv.lock = 1) ∧
    ((writeAll s x).2.count WEv.unlock = 1) ∧
    (∀ c ∈ s.channels, (writeAll s x).2.count (WEv.enq c x) = 1) ∧
    (∀ c y, WEv.enq c y ∈ (writeAll s x).2 → c ∈ s.channels ∧ y = x) ∧
    ((writeAll s x).2.count WEv.recvDone = s.channels.length) ∧
    ((writeAll s x).1.channels = s.channels) ∧
    (∀ c ∈ s.channels, (writeAll s x).1.queues c = s.queues c ++ [x]) ∧
    (∀ c, c ∉ s.channels → (writeAll s x).1.queues c = s.queues c) := by
  obtain ⟨h1, h2, h3, h4, h5, h6, h7⟩ := wtrace_shape s.channels x
  refine ⟨h1, h2, h3, h4, ?_, h7, h5, rfl, ?_, ?_⟩
  · intro c hc
    exact (h6 c hc).trans (List.count_eq_one_of_mem h hc)
  · intro c hc
    exact enqAll_mem s.channels x s.queues c h hc
  · intro c hc
    exact enqAll_not_mem s.channels x s.queues c hc

theorem writeAll_fanout_witness :
    stateW.channels.Nodup ∧
    (writeAll stateW 7).1.queues 2 = stateW.queues 2 ++ [7] :=
  ⟨by decide, (writeAll_fanout stateW 7 (by decide)).2.2.2.2.2.2.2.2.1 2 (by decide)⟩

/-- C4: for a registered channel c, writeTo enqueues the item to the
write queue of c only, leaves the write queues of all other channels
unchanged, and its action trace between mutex acquisition and release is
exactly one enqueue followed by the receive of one completion token. -/
theorem writeTo_registered (s : NodeState) (c : Nat) (x : Item)
    (h : c ∈ s.channels) :
    ((writeTo s c x).1.queues c = s.queues c ++ [x]) ∧
    (∀ d, d ≠ c → (writeTo s c x).1.queues d = s.queues d) ∧
    ((writeTo s c x).1.channels = s.channels) ∧
    ((writeTo s c x).2 = [WEv.lock, WEv.enq c x, WEv.recvDone, WEv.unlock]) := by
  refine ⟨?_, ?_, ?_, ?_⟩
  · simp [writeTo, h]
  · intro d hd
    simp [writeTo, h, hd]
  · simp [writeTo, h]
  · simp [writeTo, h]

theorem writeTo_registered_witness :
    (2 ∈ stateW.channels) ∧
    (writeTo stateW 2 7).1.queues 2 = stateW.queues 2 ++ [7] ∧
    (writeTo stateW 2 7).1.queues 3 = stateW.queues 3 :=
  ⟨by decide,
   (writeTo_registered stateW 2 7 (by decide)).1,
   (writeTo_registered stateW 2 7 (by decide)).2.1 3 (by decide)⟩

/-- C9: for a channel c that is not registered, writeTo is a no-op: the
state is returned unchanged and the action trace is just the mutex
acquisition and release - no enqueue and no completion-token receive. -/
theorem writeTo_unregistered (s : NodeState) (c : Nat) (x : Item)
    (h : c ∉ s.channels) :
    ((writeTo s c x).1 = s) ∧
    ((writeTo s c x).2 = [WEv.lock, WEv.unlock]) := by
  simp [writeTo, h]

theorem writeTo_unregistered_witness :
    (9 ∉ stateW.channels) ∧
    (writeTo stateW 9 7).1 = stateW ∧
    (writeTo stateW 9 7).2 = [WEv.lock, WEv.unlock] :=
  ⟨by decide,
   (writeTo_unregistered stateW 9 7 (by decide)).1,
   (writeTo_unregistered stateW 9 7 (by decide)).2⟩

/-- C5: writeExcept enqueues the item to every registered channel other
than the excepted one, never enqueues to the excepted channel (whose
queue is unchanged), and receives one completion token per enqueued
channel, all between the mutex acquisition and release. -/
theorem writeExcept_skips (s : NodeState) (ex : Nat) (x : Item)
    (h : s.channels.Nodup) :
    (∀ c ∈ s.channels, c ≠ ex → (writeExcept s ex x).1.queues c = s.queues c ++ [x]) ∧
    ((writeExcept s ex x).1.queues ex = s.queues ex) ∧
    (∀ c, c ∉ s.channels → (writeExcept s ex x).1.queues c = s.queues c) ∧
    (∀ y, WEv.enq ex y ∉ (writeExcept s ex x).2) ∧
    (∀ c ∈ s.channels, c ≠ ex → (writeExcept s ex x).2.count (WEv.enq c x) = 1) ∧
    ((writeExcept s ex x).2.count WEv.recvDone
      = (s.channels.filter (fun c => c ≠ ex)).length) ∧
    ((writeExcept s ex x).2.head? = some WEv.lock) ∧
    ((writeExcept s ex x).2.getLast? = some WEv.unlock) ∧
    ((writeExcept s ex x).2.count WEv.lock = 1) ∧
    ((writeExcept s ex x).2.count WEv.unlock = 1) ∧
    ((writeExcept s ex x).1.channels = s.channels) := by
  obtain ⟨h1, h2, h3, h4, h5, h6, h7⟩ :=
    wtrace_shape (s.channels.filter (fun c => c ≠ ex)) x
  have hnd : (s.channels.filter (fun c => c ≠ ex)).Nodup := h.filter _
  have hexm : ex ∉ s.channels.filter (fun c => c ≠ ex) := by
    intro hmem
    have := (List.mem_filter.mp hmem).2
    simp at this
  have hin : ∀ c, c ∈ s.channels → c ≠ ex →
      c ∈ s.channels.filter (fun c => c ≠ ex) := by
    intro c hc hne
    exact List.mem_filter.mpr ⟨hc, by simp [hne]⟩
  refine ⟨?_, ?_, ?_, ?_, ?_, h5, h1, h2, h3, h4, rfl⟩
  · intro c hc hne
    exact enqAll_mem _ x s.queues c hnd (hin c hc hne)
  · exact enqAll_not_mem _ x s.queues ex hexm
  · intro c hc
    refine enqAll_not_mem _ x s.queues c (fun hmem => hc (List.mem_filter.mp hmem).1)
  · intro y hmem
    exact hexm (h7 ex y hmem).1
  · intro c hc hne
    exact (h6 c (hin c hc hne)).trans
      (List.count_eq_one_of_mem hnd (hin c hc hne))

theorem writeExcept_skips_witness :
    stateW.channels.Nodup ∧
    (writeExcept stateW 2 7).1.queues 2 = stateW.queues 2 ∧
    (writeExcept stateW 2 7).1.queues 3 = stateW.queues 3 ++ [7] ∧
    (writeExcept stateW 2 7).2.count WEv.recvDone
      = (stateW.channels.filter (fun c => c ≠ 2)).length :=
  ⟨by decide,
   (writeExcept_skips stateW 2 7 (by decide)).2.1,
   (writeExcept_skips stateW 2 7 (by decide)).1 3 (by decide) (by decide),
   (writeExcept_skips stateW 2 7 (by decide)).2.2.2.2.2.1⟩

/-- The configuration stored in a successfully constructed node: the
original configuration with the three defaulted fields filled in. -/
def postConf (conf : NodeConf) : NodeConf :=
  { conf with
    OutComponentId := if conf.OutComponentId < 1 then 1 else conf.OutComponentId
    HeartbeatPeriod := if conf.HeartbeatPeriod = 0 then 5 * second
      else conf.HeartbeatPeriod
    HeartbeatSystemType := if conf.HeartbeatSystemType = 0 then 6
      else conf.HeartbeatSystemType }

theorem initLoop_error_iff (l : List EndpointConf) :
    ∀ (i : Nat) (accs chans : List Nat),
    (∃ e, initLoop l i accs chans = Except.error e) ↔
      ∃ c ∈ l, ∃ msg, c.initResult = Except.error msg := by
  induction l with
  | nil => intro i accs chans; simp [initLoop]
  | cons hd tl ih =>
    intro i accs chans
    cases h : hd.initResult with
    | error msg => simp [initLoop, h]
    | ok k => cases k <;> simp [initLoop, h, ih]

theorem initLoop_prefix_error (pre : List EndpointConf) :
    ∀ (i : Nat) (accs chans : List Nat) (e : EndpointConf)
      (rest : List EndpointConf) (msg : String),
      (∀ p ∈ pre, ∃ k, p.initResult = Except.ok k) →
      e.initResult = Except.error msg →
      initLoop (pre ++ e :: rest) i accs chans =
        Except.error ⟨chans ++ createdSingles pre i,
          accs ++ createdAccepters pre i, msg⟩ := by
  induction pre with
  | nil =>
    intro i accs chans e rest msg _ he
    simp [initLoop, he, createdSingles, createdAccepters]
  | cons p pre2 ih =>
    intro i accs chans e rest msg hpre he
    obtain ⟨k, hk⟩ := hpre p (List.mem_cons_self p pre2)
    have hpre2 : ∀ q ∈ pre2, ∃ k2, q.initResult = Except.ok k2 :=
      fun q hq => hpre q (List.mem_cons_of_mem p hq)
    cases k with
    | accepter =>
      rw [List.cons_append, initLoop, hk, ih (i + 1) (accs ++ [i]) chans e rest msg hpre2 he]
      simp [createdSingles, createdAccepters, hk]
    | single =>
      rw [List.cons_append, initLoop, hk, ih (i + 1) accs (chans ++ [i]) e rest msg hpre2 he]
      simp [createdSingles, createdAccepters, hk]

theorem newNode_unfold (conf : NodeConf)
    (h1 : ¬ conf.OutSystemId < 1)
    (h2 : conf.Endpoints ≠ [])
    (h3 : ¬(conf.OutSignatureKey.isSome = true ∧ conf.OutVersion ≠ V2)) :
    NewNode conf = match initLoop conf.Endpoints 0 [] [] with
      | Except.error e => Except.error e
      | Except.ok (accs, chans) =>
        Except.ok { conf := postConf conf, channelAccepters := accs,
                    channels := chans,
                    nodeHeartbeat := newNodeHeartbeat (postConf conf) } := by
  by_cases hc : conf.OutComponentId < 1 <;>
    by_cases hp : conf.HeartbeatPeriod = 0 <;>
      by_cases ht : conf.HeartbeatSystemType = 0 <;>
        simp [NewNode, postConf, h1, h2, h3, hc, hp, ht, List.length_eq_zero]

theorem newNode_ok_conf (conf : NodeConf) (n : Node)
    (h : NewNode conf = Except.ok n) : n.conf = postConf conf := by
  have h1 : ¬ conf.OutSystemId < 1 := by
    intro hh
    simp [NewNode, hh] at h
  have h2 : conf.Endpoints ≠ [] := by
    intro hh
    by_cases hc : conf.OutComponentId < 1 <;> simp [NewNode, h1, hc, hh] at h
  have h3 : ¬(conf.OutSignatureKey.isSome = true ∧ conf.OutVersion ≠ V2) := by
    intro hh
    by_cases hc : conf.OutComponentId < 1 <;>
      simp [NewNode, h1, hc, h2, hh, List.length_eq_zero] at h
  rw [newNode_unfold conf h1 h2 h3] at h
  cases hL : initLoop conf.Endpoints 0 [] [] with
  | error e => rw [hL] at h; cases h
  | ok p =>
    rw [hL] at h
    obtain ⟨accs, chans⟩ := p
    cases h
    rfl

/-- C1: NewNode returns an error if and only if the configuration is
invalid: OutSystemId is less than 1, or the endpoint list is empty, or
an out signature key is set while the out version is not V2, or some
endpoint fails to initialize; every configuration passing these checks
yields a node. -/
theorem newNode_error_iff (conf : NodeConf) :
    (∃ e, NewNode conf = Except.error e) ↔
      (conf.OutSystemId < 1 ∨ conf.Endpoints = [] ∨
       (conf.OutSignatureKey.isSome = true ∧ conf.OutVersion ≠ V2) ∨
       ∃ c ∈ conf.Endpoints, ∃ msg, c.initResult = Except.error msg) := by
  by_cases h1 : conf.OutSystemId < 1
  · simp [NewNode, h1]
  · by_cases h2 : conf.Endpoints = []
    · by_cases hc : conf.OutComponentId < 1 <;> simp [NewNode, h1, hc, h2]
    · by_cases h3 : conf.OutSignatureKey.isSome = true ∧ conf.OutVersion ≠ V2
      · by_cases hc : conf.OutComponentId < 1 <;>
          simp [NewNode, h1, hc, h2, h3, List.length_eq_zero]
      · rw [newNode_unfold conf h1 h2 h3]
        constructor
        · rintro ⟨e, he⟩
          cases hL : initLoop conf.Endpoints 0 [] [] with
          | error e2 =>
            exact Or.inr (Or.inr (Or.inr
              ((initLoop_error_iff conf.Endpoints 0 [] []).mp ⟨e2, hL⟩)))
          | ok p =>
            rw [hL] at he
            obtain ⟨accs, chans⟩ := p
            cases he
        · intro hR
          rcases hR with hh | hh | hh | hh
          · exact absurd hh h1
          · exact absurd hh h2
          · exact absurd hh h3
          · obtain ⟨e, hL⟩ :=
              (initLoop_error_iff conf.Endpoints 0 [] []).mpr hh
            exact ⟨e, by rw [hL]⟩

/-- C6: a configuration accepted by NewNode is stored with
OutComponentId defaulted to 1 when zero, HeartbeatPeriod defaulted to 5
seconds when zero, HeartbeatSystemType defaulted to 6 (MAV_TYPE_GCS)
when zero, and every other field unchanged. -/
theorem newNode_defaults (conf : NodeConf) (n : Node)
    (h : NewNode conf = Except.ok n) :
    n.conf.OutComponentId
      = (if conf.OutComponentId = 0 then 1 else conf.OutComponentId) ∧
    n.conf.HeartbeatPeriod
      = (if conf.HeartbeatPeriod = 0 then 5 * second else conf.HeartbeatPeriod) ∧
    n.conf.HeartbeatSystemType
      = (if conf.HeartbeatSystemType = 0 then 6 else conf.HeartbeatSystemType) ∧
    n.conf.Endpoints = conf.Endpoints ∧
    n.conf.Dialect = conf.Dialect ∧
    n.conf.InSignatureKey = conf.InSignatureKey ∧
    n.conf.OutVersion = conf.OutVersion ∧
    n.conf.OutSystemId = conf.OutSystemId ∧
    n.conf.OutSignatureKey = conf.OutSignatureKey ∧
    n.conf.HeartbeatDisable = conf.HeartbeatDisable := by
  rw [newNode_ok_conf conf n h]
  refine ⟨?_, rfl, rfl, rfl, rfl, rfl, rfl, rfl, rfl, rfl⟩
  simp [postConf, Nat.lt_one_iff]

/-- C7: the default outgoing frame version is V2: the zero value of the
Version type equals V2, and a configuration accepted by NewNode whose
OutVersion was left at the zero value produces a node whose outgoing
frames are wrapped as V2. -/
theorem version_default_is_V2 :
    versionZeroValue = V2 ∧
    ∀ (conf : NodeConf) (n : Node), conf.OutVersion = versionZeroValue →
      NewNode conf = Except.ok n → outgoingWrapVersion n = V2 := by
  refine ⟨rfl, ?_⟩
  intro conf n hv h
  have hconf := newNode_ok_conf conf n h
  show n.conf.OutVersion = V2
  rw [hconf]
  show conf.OutVersion = V2
  rw [hv]
  rfl

/-- C10: when the init of some endpoint fails during NewNode, the
channels and channel accepters created from the earlier endpoints in
the list - exactly the single-channel endpoints and the accepter
endpoints of the prefix - are the ones closed before the error is
returned, so a failed construction leaves no live channel or accepter. -/
theorem newNode_cleanup_on_failure (conf : NodeConf)
    (pre rest : List EndpointConf) (e : EndpointConf) (msg : String)
    (h1 : ¬ conf.OutSystemId < 1)
    (h3 : ¬(conf.OutSignatureKey.isSome = true ∧ conf.OutVersion ≠ V2))
    (hsplit : conf.Endpoints = pre ++ e :: rest)
    (hpre : ∀ p ∈ pre, ∃ k, p.initResult = Except.ok k)
    (he : e.initResult = Except.error msg) :
    NewNode conf =
      Except.error ⟨createdSingles pre 0, createdAccepters pre 0, msg⟩ := by
  have h2 : conf.Endpoints ≠ [] := by
    rw [hsplit]
    exact List.append_ne_nil_of_right_ne_nil pre (List.cons_ne_nil e rest)
  rw [newNode_unfold conf h1 h2 h3, hsplit,
    initLoop_prefix_error pre 0 [] [] e rest msg hpre he]
  simp

def isStopHeartbeat : CEv → Bool
  | CEv.stopHeartbeat => true
  | _ => false

def isStopAccepter : CEv → Bool
  | CEv.stopAccepter _ => true
  | _ => false

def isStopChannel : CEv → Bool
  | CEv.stopChannel _ => true
  | _ => false

def isStartDrainer : CEv → Bool
  | CEv.startDrainer => true
  | _ => false

def isWaitAll : CEv → Bool
  | CEv.waitAll => true
  | _ => false

def isCloseEventChan : CEv → Bool
  | CEv.closeEventChan => true
  | _ => false

/-- In the trace tr, every event satisfying p occurs strictly before
every event satisfying q. -/
def evBefore (tr : List CEv) (p q : CEv → Bool) : Prop :=
  ∀ (i j : Nat) (hi : i < tr.length) (hj : j < tr.length),
    p (tr.get ⟨i, hi⟩) = true → q (tr.get ⟨j, hj⟩) = true → i < j

theorem evBefore_append (A B : List CEv) (p q : CEv → Bool)
    (hpB : ∀ e ∈ B, p e = false) (hqA : ∀ e ∈ A, q e = false) :
    evBefore (A ++ B) p q := by
  intro i j hi hj hp hq
  have hiA : i < A.length := by
    by_contra hni
    push_neg at hni
    rw [List.get_eq_getElem, List.getElem_append_right hni] at hp
    rw [hpB _ (List.getElem_mem _)] at hp
    cases hp
  have hjA : ¬ j < A.length := by
    intro hjlt
    rw [List.get_eq_getElem, List.getElem_append_left hjlt] at hq
    rw [hqA _ (List.getElem_mem _)] at hq
    cases hq
  omega

/-- The heartbeat-stop segment of the Close trace. -/
def heartbeatPart (n : Node) : List CEv :=
  if n.nodeHeartbeat.isSome then [CEv.stopHeartbeat] else []

/-- The accepter-stop segment of the Close trace. -/
def accepterPart (n : Node) : List CEv := n.channelAccepters.map CEv.stopAccepter

/-- The channel-stop segment of the Close trace, performed under the
channels mutex. -/
def channelPart (n : Node) : List CEv :=
  CEv.lock :: n.channels.map CEv.stopChannel ++ [CEv.unlock]

/-- The final segment of the Close trace: spawn the event drainer, join
all subtasks, close the event stream. -/
def tailPart : List CEv := [CEv.startDrainer, CEv.waitAll, CEv.closeEventChan]

theorem Close_eq_parts (n : Node) :
    Close n = heartbeatPart n ++ accepterPart n ++ channelPart n ++ tailPart := rfl

theorem heartbeatPart_false {n : Node} {p : CEv → Bool}
    (hp : p CEv.stopHeartbeat = false) : ∀ e ∈ heartbeatPart n, p e = false := by
  intro e he
  unfold heartbeatPart at he
  by_cases hh : n.nodeHeartbeat.isSome <;> simp [hh] at he
  rw [he]
  exact hp

theorem accepterPart_false {n : Node} {p : CEv → Bool}
    (hp : ∀ a, p (CEv.stopAccepter a) = false) :
    ∀ e ∈ accepterPart n, p e = false := by
  intro e he
  rcases List.mem_map.mp he with ⟨a, _, rfl⟩
  exact hp a

theorem channelPart_false {n : Node} {p : CEv → Bool}
    (h1 : p CEv.lock = false) (h2 : ∀ c, p (CEv.stopChannel c) = false)
    (h3 : p CEv.unlock = false) : ∀ e ∈ channelPart n, p e = false := by
  intro e he
  rcases List.mem_cons.mp he with rfl | he2
  · exact h1
  · rcases List.mem_append.mp he2 with he3 | he3
    · rcases List.mem_map.mp he3 with ⟨c, _, rfl⟩
      exact h2 c
    · rw [List.mem_singleton.mp he3]
      exact h3

theorem appendFalse {l1 l2 : List CEv} {p : CEv → Bool}
    (h1 : ∀ e ∈ l1, p e = false) (h2 : ∀ e ∈ l2, p e = false) :
    ∀ e ∈ l1 ++ l2, p e = false := by
  intro e he
  rcases List.mem_append.mp he with h | h
  · exact h1 e h
  · exact h2 e h

/-- C3: Close stops the heartbeat task (when one exists), then the
acceptors, then every registered channel, then spawns the event drainer
and waits for all subtasks to terminate, and only then closes the event
stream: the close of the event stream occurs exactly once, is the last
action, and strictly follows the join that ends every channel. -/
theorem close_event_stream_once (n : Node) :
    ((Close n).count CEv.closeEventChan = 1) ∧
    ((Close n).getLast? = some CEv.closeEventChan) ∧
    (∀ c ∈ n.channels, CEv.stopChannel c ∈ Close n) ∧
    (∀ a ∈ n.channelAccepters, CEv.stopAccepter a ∈ Close n) ∧
    (n.nodeHeartbeat.isSome = true → CEv.stopHeartbeat ∈ Close n) ∧
    (CEv.startDrainer ∈ Close n) ∧
    (CEv.waitAll ∈ Close n) ∧
    evBefore (Close n) isStopHeartbeat isStopAccepter ∧
    evBefore (Close n) isStopAccepter isStopChannel ∧
    evBefore (Close n) isStopChannel isStartDrainer ∧
    evBefore (Close n) isStartDrainer isWaitAll ∧
    evBefore (Close n) isWaitAll isCloseEventChan := by
  rw [Close_eq_parts]
  refine ⟨?_, ?_, ?_, ?_, ?_, ?_, ?_, ?_, ?_, ?_, ?_, ?_⟩
  · have hH : (heartbeatPart n).count CEv.closeEventChan = 0 := by
      unfold heartbeatPart
      split <;> decide
    have hA : (accepterPart n).count CEv.closeEventChan = 0 :=
      List.count_eq_zero.mpr (fun h => by
        rcases List.mem_map.mp h with ⟨a, _, ha⟩
        cases ha)
    have hC : (channelPart n).count CEv.closeEventChan = 0 :=
      List.count_eq_zero.mpr (fun h => by
        have := channelPart_false (n := n) (p := isCloseEventChan) rfl
          (fun _ => rfl) rfl CEv.closeEventChan h
        cases this)
    simp [List.count_append, hH, hA, hC, tailPart]
  · unfold tailPart
    rw [List.getLast?_append_cons]
    rfl
  · intro c hc
    exact List.mem_append_left _ (List.mem_append_right _
      (List.mem_cons_of_mem _ (List.mem_append_left _ (List.mem_map_of_mem _ hc))))
  · intro a ha
    exact List.mem_append_left _ (List.mem_append_left _
      (List.mem_append_right _ (List.mem_map_of_mem _ ha)))
  · intro hh
    refine List.mem_append_left _ (List.mem_append_left _ (List.mem_append_left _ ?_))
    unfold heartbeatPart
    rw [if_pos hh]
    exact List.mem_singleton.mpr rfl
  · exact List.mem_append_right _ (by decide)
  · exact List.mem_append_right _ (by decide)
  · have hsh : heartbeatPart n ++ accepterPart n ++ channelPart n ++ tailPart
        = heartbeatPart n ++ (accepterPart n ++ (channelPart n ++ tailPart)) := by
      simp [List.append_assoc]
    rw [hsh]
    refine evBefore_append _ _ _ _ ?_ (heartbeatPart_false rfl)
    refine appendFalse (accepterPart_false (fun _ => rfl)) ?_
    exact appendFalse (channelPart_false rfl (fun _ => rfl) rfl) (by decide)
  · have hsh : heartbeatPart n ++ accepterPart n ++ channelPart n ++ tailPart
        = (heartbeatPart n ++ accepterPart n) ++ (channelPart n ++ tailPart) := by
      simp [List.append_assoc]
    rw [hsh]
    refine evBefore_append _ _ _ _ ?_ ?_
    · exact appendFalse (channelPart_false rfl (fun _ => rfl) rfl) (by decide)
    · exact appendFalse (heartbeatPart_false rfl) (accepterPart_false (fun _ => rfl))
  · refine evBefore_append _ _ _ _ (by decide) ?_
    refine appendFalse (appendFalse (heartbeatPart_false rfl)
      (accepterPart_false (fun _ => rfl))) ?_
    exact channelPart_false rfl (fun _ => rfl) rfl
  · have hsh : heartbeatPart n ++ accepterPart n ++ channelPart n ++ tailPart
        = (heartbeatPart n ++ accepterPart n ++ channelPart n ++ [CEv.startDrainer])
          ++ [CEv.waitAll, CEv.closeEventChan] := by
      simp [tailPart, List.append_assoc]
    rw [hsh]
    refine evBefore_append _ _ _ _ (by decide) ?_
    refine appendFalse ?_ (by decide)
    refine appendFalse (appendFalse (heartbeatPart_false rfl)
      (accepterPart_false (fun _ => rfl))) ?_
    exact channelPart_false rfl (fun _ => rfl) rfl
  · have hsh : heartbeatPart n ++ accepterPart n ++ channelPart n ++ tailPart
        = (heartbeatPart n ++ accepterPart n ++ channelPart n
            ++ [CEv.startDrainer, CEv.waitAll]) ++ [CEv.closeEventChan] := by
      simp [tailPart, List.append_assoc]
    rw [hsh]
    refine evBefore_append _ _ _ _ (by decide) ?_
    refine appendFalse ?_ (by decide)
    refine appendFalse (appendFalse (heartbeatPart_false rfl)
      (accepterPart_false (fun _ => rfl))) ?_
    exact channelPart_false rfl (fun _ => rfl) rfl

/-- A concrete node used to instantiate the Close theorem: a heartbeat
emitter, two accepters and two channels. -/
def nodeC : Node :=
  { conf := zeroNodeConf, channelAccepters := [4, 5], channels := [1, 2],
    nodeHeartbeat := some () }

theorem close_event_stream_once_witness :
    (Close nodeC).count CEv.closeEventChan = 1 ∧
    (Close nodeC).getLast? = some CEv.closeEventChan ∧
    CEv.stopChannel 2 ∈ Close nodeC ∧
    evBefore (Close nodeC) isWaitAll isCloseEventChan := by
  have h := close_event_stream_once nodeC
  exact ⟨h.1, h.2.1, h.2.2.1 2 (by decide), h.2.2.2.2.2.2.2.2.2.2.2⟩

/-- C8: the network-transport constants equal the specified values, in
bytes and nanoseconds: 512-byte read buffer, 10 s connect timeout, 60 s
read timeout, 10 s write timeout, 2 s reconnect backoff. -/
theorem net_transport_constants :
    netBufferSize = 512 ∧
    netConnectTimeout = 10000000000 ∧
    netReadTimeout = 60000000000 ∧
    netWriteTimeout = 10000000000 ∧
    netReconnectPeriod = 2000000000 := by
  refine ⟨rfl, ?_, ?_, ?_, ?_⟩ <;> decide

/-- An endpoint whose init yields a single-channel endpoint. -/
def epSingle : EndpointConf := ⟨Except.ok EndpointKind.single⟩

/-- An endpoint whose init yields an accepter endpoint. -/
def epAccepter : EndpointConf := ⟨Except.ok EndpointKind.accepter⟩

/-- An endpoint whose init fails. -/
def epFailing : EndpointConf := ⟨Except.error "boom"⟩

/-- A minimal valid configuration: system id 1, one single-channel
endpoint, everything else left at the zero value. -/
def confA : NodeConf :=
  { zeroNodeConf with
    OutSystemId := 1
    Endpoints := [epSingle] }

/-- The node NewNode builds from confA. -/
def nodeA : Node :=
  { conf :=
      { confA with
        OutComponentId := 1
        HeartbeatPeriod := 5 * second
        HeartbeatSystemType := 6 }
    channelAccepters := []
    channels := [0]
    nodeHeartbeat := none }

/-- A configuration whose third endpoint fails to initialize. -/
def confB : NodeConf :=
  { zeroNodeConf with
    OutSystemId := 1
    Endpoints := [epSingle, epAccepter, epFailing, epSingle] }

theorem newNode_error_iff_witness : ∃ e, NewNode confB = Except.error e :=
  (newNode_error_iff confB).mpr
    (Or.inr (Or.inr (Or.inr ⟨epFailing, by decide, "boom", rfl⟩)))

theorem newNode_defaults_witness :
    NewNode confA = Except.ok nodeA ∧
    nodeA.conf.OutComponentId
      = (if confA.OutComponentId = 0 then 1 else confA.OutComponentId) ∧
    nodeA.conf.HeartbeatPeriod
      = (if confA.HeartbeatPeriod = 0 then 5 * second else confA.HeartbeatPeriod) ∧
    nodeA.conf.HeartbeatSystemType
      = (if confA.HeartbeatSystemType = 0 then 6 else confA.HeartbeatSystemType) ∧
    nodeA.conf.OutSystemId = confA.OutSystemId := by
  have hok : NewNode confA = Except.ok nodeA := by decide
  have h := newNode_defaults confA nodeA hok
  exact ⟨hok, h.1, h.2.1, h.2.2.1, h.2.2.2.2.2.2.2.1⟩

theorem version_default_is_V2_witness :
    versionZeroValue = V2 ∧ outgoingWrapVersion nodeA = V2 :=
  ⟨version_default_is_V2.1,
   version_default_is_V2.2 confA nodeA rfl (by decide)⟩

theorem newNode_cleanup_on_failure_witness :
    NewNode confB = Except.error
      ⟨createdSingles [epSingle, epAccepter] 0,
       createdAccepters [epSingle, epAccepter] 0, "boom"⟩ :=
  newNode_cleanup_on_failure confB [epSingle, epAccepter] [epSingle] epFailing
    "boom" (by decide) (by decide) rfl
    (by intro p hp
        fin_cases hp
        · exact ⟨EndpointKind.single, rfl⟩
        · exact ⟨EndpointKind.accepter, rfl⟩)
    rfl

end Gomavlib
